import Mathlib

/-!
Verification of the hospital-dashboard census engine (`app_streamlit.py`).

The embedding models:
* timestamps as a calendar day (an integer) plus a time-of-day component;
  a value that failed to parse (`pd.to_datetime(..., errors="coerce")`
  producing `NaT`) is `none`;
* an admissions row (`Encounter`), a `bed_capacity` row (`Capacity`);
* `load_admissions` (SQL filtering over the store; the SQLite `date()` of an
  unparseable timestamp is NULL and NULL comparisons are not satisfied);
* `compute_daily_true_occupancy` (per-(hospital, unit) day-grid census with
  the half-open day-interval test `admit_d <= d && discharge_d > d`, a left
  merge against `bed_capacity`, `fillna(0)` of the bed count, and
  `occ_pct = census / staffed_beds * 100` guarded by `staffed_beds > 0`,
  NaN otherwise — NaN is modelled as `none`);
* the `admissions_per_day` KPI (`groupby(admit date).size().mean()`, where
  the groupby drops rows whose admit date is the missing marker);
* the proxy-occupancy series (`arrivals / baseline_staffed_beds` clipped
  at 1.2, over IEEE semantics: division of a positive count by zero gives
  +infinity and clipping maps +infinity to the cap, while a missing
  denominator propagates NaN).
-/

namespace Hospital

/-- A parsed timestamp: calendar day (integer day number) and time of day. -/
structure Timestamp where
  day : Int
  tod : Nat
deriving DecidableEq, Repr

/-- One row of the `admissions` table.  `admit_ts` / `discharge_ts` are
`none` when the stored text does not parse (pandas `NaT`). -/
structure Encounter where
  encounter_id : String
  patient_id : String
  hospital : String
  unit_id : String
  triage_level : Option Int
  admit_ts : Option Timestamp
  discharge_ts : Option Timestamp
  wait_minutes : Option Int
deriving DecidableEq, Repr

/-- One row of the `bed_capacity` table. -/
structure Capacity where
  hospital : String
  unit_id : String
  baseline_staffed_beds : Nat
deriving DecidableEq, Repr

/-- `admit_ts.dt.date`: day of the admit timestamp, `none` for the
missing marker. -/
def admit_d (x : Encounter) : Option Int :=
  x.admit_ts.map Timestamp.day

/-- `discharge_ts.dt.date`: day of the discharge timestamp, `none` for the
missing marker. -/
def discharge_d (x : Encounter) : Option Int :=
  x.discharge_ts.map Timestamp.day

/-- Pandas comparison `series <= d` on a date column: a missing value
compares false. -/
def optLe (o : Option Int) (d : Int) : Bool :=
  match o with
  | some a => decide (a ≤ d)
  | none => false

/-- Pandas comparison `series > d` on a date column: a missing value
compares false. -/
def optGt (o : Option Int) (d : Int) : Bool :=
  match o with
  | some b => decide (d < b)
  | none => false

/-- The per-encounter census test of `compute_daily_true_occupancy`:
`(g["admit_d"] <= d) & (g["discharge_d"] > d)`. -/
def countsOn (x : Encounter) (d : Int) : Bool :=
  optLe (admit_d x) d && optGt (discharge_d x) d

/-- `((g["admit_d"] <= d) & (g["discharge_d"] > d)).sum()`: the census of a
group `g` on day `d`. -/
def censusCount (g : List Encounter) (d : Int) : Nat :=
  (g.filter (fun x => countsOn x d)).length

/-- `pd.date_range(date_start, date_end, freq="D")` as a list of day
numbers; empty when the window is reversed. -/
def dayGrid (date_start date_end : Int) : List Int :=
  (List.range (date_end - date_start + 1).toNat).map (fun i : Nat => date_start + (i : Int))

/-- The `(hospital, unit_id)` group keys of `df.groupby(["hospital","unit_id"])`:
each distinct key once. -/
def groupKeys (adm : List Encounter) : List (String × String) :=
  (adm.map (fun x => (x.hospital, x.unit_id))).dedup

/-- The rows of one groupby group. -/
def groupOf (adm : List Encounter) (k : String × String) : List Encounter :=
  adm.filter (fun x => decide ((x.hospital, x.unit_id) = k))

/-- One pre-merge census row: `{"hospital": h, "unit_id": u, "date": d, "census": c}`. -/
structure CensusRow where
  hospital : String
  unit_id : String
  date : Int
  census : Nat
deriving DecidableEq, Repr

/-- The census row built for group `k` on day `d`. -/
def censusRowOf (adm : List Encounter) (k : String × String) (d : Int) : CensusRow :=
  { hospital := k.1, unit_id := k.2, date := d, census := censusCount (groupOf adm k) d }

/-- The concatenated census frame: for every group, one row per day of the
grid (`pd.concat(groups)`). -/
def censusRows (adm : List Encounter) (date_start date_end : Int) : List CensusRow :=
  (groupKeys adm).flatMap (fun k => (dayGrid date_start date_end).map (censusRowOf adm k))

/-- One row of the output frame of the engine.  `occ_pct = none` models NaN. -/
structure OccRow where
  hospital : String
  unit_id : String
  date : Int
  census : Nat
  staffed_beds : Nat
  occ_pct : Option ℚ
deriving DecidableEq, Repr

/-- The `bed_capacity` rows matching a `(hospital, unit_id)` key, in table
order (the right side of the pandas merge). -/
def bedsMatches (beds_ref : List Capacity) (h u : String) : List Capacity :=
  beds_ref.filter (fun b => decide (b.hospital = h ∧ b.unit_id = u))

/-- Finish one merged row: `fillna(0)` of the bed count and
`occ_pct = np.where(staffed_beds > 0, census / staffed_beds * 100, nan)`. -/
def mkOccRow (r : CensusRow) (beds : Nat) : OccRow :=
  { hospital := r.hospital, unit_id := r.unit_id, date := r.date, census := r.census,
    staffed_beds := beds,
    occ_pct := if 0 < beds then some (((r.census : ℚ) / (beds : ℚ)) * 100) else none }

/-- The left merge of one census row against `bed_capacity`: one output row
per matching capacity row, or a single row with missing bed count (filled
with 0) when no capacity row matches. -/
def mergeRow (beds_ref : List Capacity) (r : CensusRow) : List OccRow :=
  match bedsMatches beds_ref r.hospital r.unit_id with
  | [] => [mkOccRow r 0]
  | ms => ms.map (fun b => mkOccRow r b.baseline_staffed_beds)

/-- `compute_daily_true_occupancy(adm, beds_ref, date_start, date_end)`. -/
def compute_daily_true_occupancy (adm : List Encounter) (beds_ref : List Capacity)
    (date_start date_end : Int) : List OccRow :=
  if adm.isEmpty then []
  else (censusRows adm date_start date_end).flatMap (mergeRow beds_ref)

/-- The first `bed_capacity` row with the given key, if any. -/
def findBeds (beds_ref : List Capacity) (h u : String) : Option Capacity :=
  beds_ref.find? (fun b => decide (b.hospital = h ∧ b.unit_id = u))

/-- Bed count obtained by key lookup, 0 when the key is absent. -/
def lookupBeds (beds_ref : List Capacity) (h u : String) : Nat :=
  match findBeds beds_ref h u with
  | some b => b.baseline_staffed_beds
  | none => 0

/-- The `(hospital, unit_id)` key of a capacity row. -/
def capKey (b : Capacity) : String × String :=
  (b.hospital, b.unit_id)

/-- The data-model invariant of the capacity reference (spec section 3):
one `CapacityRecord` per `(hospital, unit)` pair. -/
def bedsUnique (beds_ref : List Capacity) : Prop :=
  (beds_ref.map capKey).Nodup

instance bedsUniqueDecidable (beds_ref : List Capacity) : Decidable (bedsUnique beds_ref) :=
  inferInstanceAs (Decidable ((beds_ref.map capKey).Nodup))

/-- SQL clause `date(admit_ts) >= date(?)` when a lower bound is given:
`date()` of an unparseable timestamp is NULL and a NULL comparison does not
satisfy the WHERE clause. -/
def dateFromOK (s : Option Int) (x : Encounter) : Bool :=
  match s, admit_d x with
  | none, _ => true
  | some _, none => false
  | some lo, some a => decide (lo ≤ a)

/-- SQL clause `date(admit_ts) <= date(?)` when an upper bound is given. -/
def dateToOK (t : Option Int) (x : Encounter) : Bool :=
  match t, admit_d x with
  | none, _ => true
  | some _, none => false
  | some hi, some a => decide (a ≤ hi)

/-- Hospital clause: applied only when the argument is neither None nor the
sentinel "All". -/
def hospOK (h : Option String) (x : Encounter) : Bool :=
  match h with
  | none => true
  | some v => if v = "All" then true else decide (x.hospital = v)

/-- Unit clause: applied only when the argument is neither None nor the
sentinel "All". -/
def unitOK (u : Option String) (x : Encounter) : Bool :=
  match u with
  | none => true
  | some v => if v = "All" then true else decide (x.unit_id = v)

/-- `load_admissions(date_from, date_to, hospital, unit)` over a store
`db`: the SELECT with its dynamically built WHERE clauses, followed by the
`pd.to_datetime(..., errors="coerce")` step (already reflected in the
`Option Timestamp` fields, which hold `none` exactly for text that does not
parse). -/
def load_admissions (db : List Encounter) (date_from date_to : Option Int)
    (hospital unit : Option String) : List Encounter :=
  db.filter (fun x => dateFromOK date_from x && dateToOK date_to x
    && hospOK hospital x && unitOK unit x)

/-- The distinct valid admit days of `adm.groupby(adm["admit_ts"].dt.date)`
(rows whose admit date is the missing marker are dropped by the groupby). -/
def admitDays (adm : List Encounter) : List Int :=
  (adm.filterMap admit_d).dedup

/-- Number of rows admitted on day `d` (the `size()` of one group). -/
def admitCountOn (adm : List Encounter) (d : Int) : Nat :=
  (adm.filter (fun x => decide (admit_d x = some d))).length

/-- `adm.groupby(adm["admit_ts"].dt.date).size().mean()`: the mean of the
per-day group sizes; `none` models the NaN mean of an empty series. -/
def admissions_per_day (adm : List Encounter) : Option ℚ :=
  if admitDays adm = [] then none
  else some (((admitDays adm).map (fun d => (admitCountOn adm d : ℚ))).sum
    / ((admitDays adm).length : ℚ))

/-- A float value as produced by the proxy-occupancy arithmetic: NaN,
positive infinity, or a finite value. -/
inductive PVal where
  | nan : PVal
  | inf : PVal
  | val : ℚ → PVal
deriving DecidableEq, Repr

/-- `arrivals / baseline_staffed_beds` under IEEE semantics after a left
merge: missing denominator gives NaN, a zero denominator gives +infinity
for a positive numerator (and NaN for 0/0). -/
def npDiv (a : Nat) (b : Option Nat) : PVal :=
  match b with
  | none => PVal.nan
  | some 0 => if a = 0 then PVal.nan else PVal.inf
  | some m => PVal.val ((a : ℚ) / (m : ℚ))

/-- `.clip(upper=c)`: NaN propagates, +infinity is clipped to the cap, a
finite value is capped at `c`. -/
def pclip (c : ℚ) : PVal → PVal
  | PVal.nan => PVal.nan
  | PVal.inf => PVal.val c
  | PVal.val q => PVal.val (min q c)

/-- The `(hospital, unit_id, admit date)` groupby key of one admissions
row; `none` when the admit date is missing (the groupby drops the row). -/
def arrivalKey (x : Encounter) : Option (String × String × Int) :=
  (admit_d x).map (fun d => (x.hospital, x.unit_id, d))

/-- The distinct keys of `daily_arrivals`. -/
def arrivalKeys (adm : List Encounter) : List (String × String × Int) :=
  (adm.filterMap arrivalKey).dedup

/-- `size()` of one `daily_arrivals` group. -/
def arrivalsCount (adm : List Encounter) (k : String × String × Int) : Nat :=
  (adm.filter (fun x => decide (arrivalKey x = some k))).length

/-- One row of the `occ_proxy` frame after the left merge and the clipped
division. -/
structure ProxyRow where
  hospital : String
  unit_id : String
  date : Int
  arrivals : Nat
  baseline : Option Nat
  occ_proxy : PVal
deriving DecidableEq, Repr

/-- Build one proxy row: `occ_proxy = (arrivals / baseline_staffed_beds).clip(upper=1.2)`. -/
def mkProxyRow (k : String × String × Int) (a : Nat) (b : Option Nat) : ProxyRow :=
  { hospital := k.1, unit_id := k.2.1, date := k.2.2, arrivals := a, baseline := b,
    occ_proxy := pclip (6/5 : ℚ) (npDiv a b) }

/-- The `occ_proxy` frame: `daily_arrivals` (grouped arrival counts) left
merged against `bed_capacity`, with the clipped arrivals-over-beds ratio. -/
def occ_proxy_rows (adm : List Encounter) (beds_ref : List Capacity) : List ProxyRow :=
  (arrivalKeys adm).flatMap (fun k =>
    match bedsMatches beds_ref k.1 k.2.1 with
    | [] => [mkProxyRow k (arrivalsCount adm k) none]
    | ms => ms.map (fun b => mkProxyRow k (arrivalsCount adm k) (some b.baseline_staffed_beds)))

/-- A concrete encounter: admitted on day 0, discharged on day 2. -/
def encA : Encounter :=
  { encounter_id := "E1", patient_id := "P1", hospital := "H", unit_id := "ICU",
    triage_level := none, admit_ts := some ⟨0, 5⟩, discharge_ts := some ⟨2, 3⟩,
    wait_minutes := none }

/-- A concrete encounter admitted and discharged on the same day. -/
def encSame : Encounter :=
  { encounter_id := "E2", patient_id := "P2", hospital := "H", unit_id := "ICU",
    triage_level := none, admit_ts := some ⟨1, 2⟩, discharge_ts := some ⟨1, 9⟩,
    wait_minutes := none }

/-- A concrete encounter whose discharge timestamp failed to parse. -/
def encBad : Encounter :=
  { encounter_id := "E3", patient_id := "P3", hospital := "H", unit_id := "ICU",
    triage_level := none, admit_ts := some ⟨0, 0⟩, discharge_ts := none,
    wait_minutes := none }

/-- A concrete capacity reference with two staffed beds for (H, ICU). -/
def bedsA : List Capacity :=
  [{ hospital := "H", unit_id := "ICU", baseline_staffed_beds := 2 }]

/-- A concrete capacity reference with zero staffed beds for (H, ICU). -/
def bedsZ : List Capacity :=
  [{ hospital := "H", unit_id := "ICU", baseline_staffed_beds := 0 }]

@[simp] lemma mkOccRow_hospital (r : CensusRow) (n : Nat) :
    (mkOccRow r n).hospital = r.hospital := rfl

@[simp] lemma mkOccRow_unit_id (r : CensusRow) (n : Nat) :
    (mkOccRow r n).unit_id = r.unit_id := rfl

@[simp] lemma mkOccRow_date (r : CensusRow) (n : Nat) :
    (mkOccRow r n).date = r.date := rfl

@[simp] lemma mkOccRow_census (r : CensusRow) (n : Nat) :
    (mkOccRow r n).census = r.census := rfl

@[simp] lemma mkOccRow_staffed (r : CensusRow) (n : Nat) :
    (mkOccRow r n).staffed_beds = n := rfl

@[simp] lemma censusRowOf_hospital (adm : List Encounter) (k : String × String) (d : Int) :
    (censusRowOf adm k d).hospital = k.1 := rfl

@[simp] lemma censusRowOf_unit_id (adm : List Encounter) (k : String × String) (d : Int) :
    (censusRowOf adm k d).unit_id = k.2 := rfl

@[simp] lemma censusRowOf_date (adm : List Encounter) (k : String × String) (d : Int) :
    (censusRowOf adm k d).date = d := rfl

lemma find?_eq_head_of_filter {α : Type} (p : α → Bool) (l : List α) :
    l.find? p = (l.filter p).head? := by
  induction l with
  | nil => rfl
  | cons x xs ih =>
    by_cases h : p x
    · simp [List.find?_cons_of_pos _ h, List.filter_cons, h]
    · rw [List.find?_cons_of_neg _ h, List.filter_cons, if_neg h]
      exact ih

lemma filter_key_le_one {α κ : Type} (f : α → κ) (k : κ)
    (l : List α) (p : α → Bool) (hp : ∀ a, p a = true ↔ f a = k)
    (h : (l.map f).Nodup) : (l.filter p).length ≤ 1 := by
  induction l with
  | nil => simp
  | cons x xs ih =>
    rw [List.map_cons, List.nodup_cons] at h
    rw [List.filter_cons]
    by_cases hx : p x
    · rw [if_pos hx]
      have hfx : f x = k := (hp x).1 hx
      have hnil : xs.filter p = [] := by
        rw [List.filter_eq_nil_iff]
        intro a ha hpa
        have hfa : f a = k := (hp a).1 hpa
        have : f x ∈ xs.map f := by
          rw [hfx, ← hfa]
          exact List.mem_map_of_mem f ha
        exact h.1 this
      simp [hnil]
    · rw [if_neg hx]
      exact ih h.2

lemma bedsMatches_length_le_one (beds_ref : List Capacity) (h u : String)
    (hU : bedsUnique beds_ref) : (bedsMatches beds_ref h u).length ≤ 1 := by
  refine filter_key_le_one capKey (h, u) beds_ref _ (fun b => ?_) hU
  simp [capKey, Prod.ext_iff]

lemma mergeRow_eq_single (beds_ref : List Capacity) (hU : bedsUnique beds_ref)
    (r : CensusRow) :
    mergeRow beds_ref r = [mkOccRow r (lookupBeds beds_ref r.hospital r.unit_id)] := by
  have hfind : findBeds beds_ref r.hospital r.unit_id
      = (bedsMatches beds_ref r.hospital r.unit_id).head? :=
    find?_eq_head_of_filter _ _
  have hle := bedsMatches_length_le_one beds_ref r.hospital r.unit_id hU
  cases hm : bedsMatches beds_ref r.hospital r.unit_id with
  | nil =>
    simp [mergeRow, hm, lookupBeds, hfind]
  | cons b tail =>
    rw [hm] at hle
    have ht : tail = [] := by
      cases tail with
      | nil => rfl
      | cons c cs => simp at hle
    subst ht
    simp [mergeRow, hm, lookupBeds, hfind]

lemma flatMap_eq_map_of_forall_single {α β : Type} (l : List α) (F : α → List β)
    (g : α → β) (h : ∀ a ∈ l, F a = [g a]) : l.flatMap F = l.map g := by
  induction l with
  | nil => rfl
  | cons x xs ih =>
    rw [List.flatMap_cons, h x (List.mem_cons_self x xs), List.map_cons,
      ih (fun a ha => h a (List.mem_cons_of_mem x ha))]
    rfl

lemma compute_eq_map (adm : List Encounter) (beds_ref : List Capacity)
    (s e : Int) (hU : bedsUnique beds_ref) (hne : adm ≠ []) :
    compute_daily_true_occupancy adm beds_ref s e
      = (censusRows adm s e).map
          (fun r => mkOccRow r (lookupBeds beds_ref r.hospital r.unit_id)) := by
  rw [compute_daily_true_occupancy, if_neg (by simp [hne])]
  exact flatMap_eq_map_of_forall_single _ _ _
    (fun r _ => mergeRow_eq_single beds_ref hU r)

lemma filter_map_swap {α β : Type} (l : List α) (g : α → β) (p : β → Bool) :
    (l.map g).filter p = (l.filter (fun a => p (g a))).map g := by
  induction l with
  | nil => rfl
  | cons x xs ih =>
    rw [List.map_cons, List.filter_cons, List.filter_cons]
    by_cases h : p (g x)
    · rw [if_pos h, if_pos h, List.map_cons, ih]
    · rw [if_neg h, if_neg h, ih]

lemma filter_flatMap_key {κ β : Type} (ks : List κ) (F : κ → List β)
    (keyOf : β → κ) (k : κ) (p : β → Bool)
    (hp : ∀ b, p b = true ↔ keyOf b = k)
    (hnd : ks.Nodup) (hk : k ∈ ks)
    (hkey : ∀ k2, ∀ b ∈ F k2, keyOf b = k2) :
    (ks.flatMap F).filter p = F k := by
  induction ks with
  | nil => cases hk
  | cons x xs ih =>
    rw [List.flatMap_cons, List.filter_append]
    rw [List.nodup_cons] at hnd
    rcases List.mem_cons.1 hk with rfl | hmem
    · have h1 : (F k).filter p = F k :=
        List.filter_eq_self.2 (fun b hb => (hp b).2 (hkey k b hb))
      have h2 : (xs.flatMap F).filter p = [] := by
        rw [List.filter_eq_nil_iff]
        intro b hb
        rcases List.mem_flatMap.1 hb with ⟨k2, hk2, hbk2⟩
        have hb2 : keyOf b = k2 := hkey k2 b hbk2
        have hne2 : k2 ≠ k := fun hh => hnd.1 (hh ▸ hk2)
        intro hpb
        exact hne2 (hb2 ▸ (hp b).1 hpb)
      rw [h1, h2, List.append_nil]
    · have hxk : x ≠ k := fun hh => hnd.1 (hh ▸ hmem)
      have h1 : (F x).filter p = [] := by
        rw [List.filter_eq_nil_iff]
        intro b hb hpb
        exact hxk ((hkey x b hb) ▸ (hp b).1 hpb)
      rw [h1, List.nil_append, ih hnd.2 hmem]

lemma dayGrid_length (s e : Int) (h : s ≤ e) :
    (dayGrid s e).length = (e - s).toNat + 1 := by
  simp only [dayGrid, List.length_map, List.length_range]
  omega

lemma mem_dayGrid {s e d : Int} : d ∈ dayGrid s e ↔ s ≤ d ∧ d ≤ e := by
  simp only [dayGrid, List.mem_map, List.mem_range]
  constructor
  · rintro ⟨i, hi, rfl⟩
    omega
  · rintro ⟨h1, h2⟩
    exact ⟨(d - s).toNat, by omega, by omega⟩

lemma dayGrid_nodup (s e : Int) : (dayGrid s e).Nodup := by
  rw [dayGrid]
  refine List.Nodup.map ?_ (List.nodup_range _)
  intro a b hab
  simp only at hab
  omega

lemma censusCount_nil (d : Int) : censusCount [] d = 0 := rfl

lemma censusCount_cons (x : Encounter) (g : List Encounter) (d : Int) :
    censusCount (x :: g) d = (if countsOn x d then 1 else 0) + censusCount g d := by
  by_cases h : countsOn x d <;> simp [censusCount, List.filter_cons, h] <;> omega

lemma censusCount_singleton (x : Encounter) (d : Int) :
    censusCount [x] d = if countsOn x d then 1 else 0 := by
  rw [censusCount_cons, censusCount_nil]
  omega

lemma censusCount_eq_sum (g : List Encounter) (d : Int) :
    censusCount g d = (g.map (fun y => censusCount [y] d)).sum := by
  induction g with
  | nil => rfl
  | cons x xs ih =>
    rw [censusCount_cons, ih, List.map_cons, List.sum_cons, censusCount_singleton]

/-- C1: an encounter whose admit timestamp truncates to day A and whose
discharge timestamp truncates to day B with A < B contributes exactly 1 to
the census of each day D with A <= D < B and 0 to every other day; the
census of a group is the sum of these per-encounter contributions. -/
theorem half_open_interval_law (x : Encounter) (A B : Int)
    (hA : admit_d x = some A) (hB : discharge_d x = some B) (hAB : A < B) :
    (∀ D : Int, censusCount [x] D = if A ≤ D ∧ D < B then 1 else 0)
    ∧ (∀ (g : List Encounter) (D : Int),
        censusCount g D = (g.map (fun y => censusCount [y] D)).sum) := by
  refine ⟨fun D => ?_, fun g D => censusCount_eq_sum g D⟩
  rw [censusCount_singleton]
  simp only [countsOn, hA, hB, optLe, optGt]
  by_cases h1 : A ≤ D <;> by_cases h2 : D < B <;> simp [h1, h2]

theorem half_open_interval_law_witness :
    admit_d encA = some 0 ∧ discharge_d encA = some 2 ∧ (0 : Int) < 2
    ∧ ((∀ D : Int, censusCount [encA] D = if (0 : Int) ≤ D ∧ D < 2 then 1 else 0)
       ∧ (∀ (g : List Encounter) (D : Int),
           censusCount g D = (g.map (fun y => censusCount [y] D)).sum)) :=
  ⟨by decide, by decide, by decide,
    half_open_interval_law encA 0 2 (by decide) (by decide) (by decide)⟩

/-- C7: an encounter admitted and discharged on the same calendar day
satisfies the census test on no day and contributes zero to the census
of every day. -/
theorem single_day_stay (x : Encounter) (A : Int)
    (hA : admit_d x = some A) (hB : discharge_d x = some A) :
    ∀ D : Int, countsOn x D = false ∧ censusCount [x] D = 0 := by
  intro D
  have h : countsOn x D = false := by
    simp only [countsOn, optLe, optGt, hA, hB]
    by_cases h1 : A ≤ D <;> by_cases h2 : D < A <;> simp [h1, h2] <;> omega
  refine ⟨h, ?_⟩
  rw [censusCount_singleton, h]
  simp

theorem single_day_stay_witness :
    admit_d encSame = some 1 ∧ discharge_d encSame = some 1
    ∧ ∀ D : Int, countsOn encSame D = false ∧ censusCount [encSame] D = 0 :=
  ⟨by decide, by decide, single_day_stay encSame 1 (by decide) (by decide)⟩

/-- C6: on an empty encounter collection the engine returns no rows at all,
for every capacity reference and every window. -/
theorem empty_input_empty_output (beds_ref : List Capacity) (date_start date_end : Int) :
    compute_daily_true_occupancy [] beds_ref date_start date_end = [] := rfl

/-- C5: a stored row whose admit or discharge timestamp failed to parse is
still returned by the unfiltered query, with the missing marker in place,
and is excluded from the census of every day. -/
theorem malformed_timestamp_handling (db : List Encounter) (x : Encounter)
    (hx : x ∈ db) (hbad : x.admit_ts = none ∨ x.discharge_ts = none) :
    x ∈ load_admissions db none none none none
    ∧ (∀ D : Int, countsOn x D = false)
    ∧ (∀ (g : List Encounter) (D : Int), censusCount (x :: g) D = censusCount g D) := by
  have hc : ∀ D : Int, countsOn x D = false := by
    intro D
    rcases hbad with h | h <;> simp [countsOn, admit_d, discharge_d, h, optLe, optGt]
  refine ⟨?_, hc, fun g D => ?_⟩
  · simp [load_admissions, List.mem_filter, dateFromOK, dateToOK, hospOK, unitOK, hx]
  · rw [censusCount_cons, hc]
    simp

theorem malformed_timestamp_handling_witness :
    encBad ∈ [encA, encBad] ∧ (encBad.admit_ts = none ∨ encBad.discharge_ts = none)
    ∧ (encBad ∈ load_admissions [encA, encBad] none none none none
       ∧ (∀ D : Int, countsOn encBad D = false)
       ∧ (∀ (g : List Encounter) (D : Int), censusCount (encBad :: g) D = censusCount g D)) :=
  ⟨by decide, by decide,
    malformed_timestamp_handling [encA, encBad] encBad (by decide) (by decide)⟩

lemma mkOccRow_occ_none_iff (r : CensusRow) (n : Nat) :
    (mkOccRow r n).occ_pct = none ↔ (mkOccRow r n).staffed_beds = 0 := by
  by_cases h : 0 < n <;> simp [mkOccRow, h] <;> omega

lemma mkOccRow_occ_formula (r : CensusRow) (n : Nat) (h : n ≠ 0) :
    (mkOccRow r n).occ_pct
      = some ((((mkOccRow r n).census : ℚ) / ((mkOccRow r n).staffed_beds : ℚ)) * 100) := by
  simp [mkOccRow, Nat.pos_of_ne_zero h]

lemma filter_key_of_compute (adm : List Encounter) (beds_ref : List Capacity)
    (s e : Int) (k : String × String) (hne : adm ≠ []) (hk : k ∈ groupKeys adm)
    (hU : bedsUnique beds_ref) :
    (compute_daily_true_occupancy adm beds_ref s e).filter
        (fun r => decide ((r.hospital, r.unit_id) = k))
      = ((dayGrid s e).map (censusRowOf adm k)).map
          (fun r => mkOccRow r (lookupBeds beds_ref r.hospital r.unit_id)) := by
  rw [compute_eq_map adm beds_ref s e hU hne, filter_map_swap]
  congr 1
  have hcong : (censusRows adm s e).filter
      (fun r => decide (((mkOccRow r (lookupBeds beds_ref r.hospital r.unit_id)).hospital,
        (mkOccRow r (lookupBeds beds_ref r.hospital r.unit_id)).unit_id) = k))
      = (censusRows adm s e).filter (fun r => decide ((r.hospital, r.unit_id) = k)) :=
    List.filter_congr (fun r _ => by simp)
  rw [hcong, censusRows]
  refine filter_flatMap_key (groupKeys adm) _ (fun r => (r.hospital, r.unit_id)) k _
    (fun b => by simp) (List.nodup_dedup _) hk ?_
  intro k2 b hb
  rcases List.mem_map.1 hb with ⟨d, _, rfl⟩
  simp

/-- C2: for a non-empty encounter collection, a window with
date_start <= date_end and a (hospital, unit) group present in the input
(the capacity reference holding one record per key, its data-model
invariant), the rows the engine emits for that group carry exactly the
days of the window grid, in order — hence exactly
(date_end - date_start) + 1 rows, one per calendar day, without gaps and
without duplicates. -/
theorem coverage_one_row_per_day (adm : List Encounter) (beds_ref : List Capacity)
    (s e : Int) (k : String × String) (hne : adm ≠ []) (hse : s ≤ e)
    (hk : k ∈ groupKeys adm) (hU : bedsUnique beds_ref) :
    ((compute_daily_true_occupancy adm beds_ref s e).filter
        (fun r => decide ((r.hospital, r.unit_id) = k))).map OccRow.date = dayGrid s e
    ∧ ((compute_daily_true_occupancy adm beds_ref s e).filter
        (fun r => decide ((r.hospital, r.unit_id) = k))).length = (e - s).toNat + 1
    ∧ (dayGrid s e).Nodup := by
  have hmain := filter_key_of_compute adm beds_ref s e k hne hk hU
  have hdates : ((compute_daily_true_occupancy adm beds_ref s e).filter
      (fun r => decide ((r.hospital, r.unit_id) = k))).map OccRow.date = dayGrid s e := by
    rw [hmain, List.map_map, List.map_map]
    refine Eq.trans ?_ (List.map_id (dayGrid s e))
    exact List.map_congr_left (fun d _ => rfl)
  refine ⟨hdates, ?_, dayGrid_nodup s e⟩
  have := congrArg List.length hdates
  rw [List.length_map] at this
  rw [this, dayGrid_length s e hse]

theorem coverage_one_row_per_day_witness :
    ([encA] ≠ ([] : List Encounter)) ∧ (0 : Int) ≤ 1
    ∧ ("H", "ICU") ∈ groupKeys [encA] ∧ bedsUnique bedsA
    ∧ (((compute_daily_true_occupancy [encA] bedsA 0 1).filter
          (fun r => decide ((r.hospital, r.unit_id) = ("H", "ICU")))).map OccRow.date
            = dayGrid 0 1
       ∧ ((compute_daily_true_occupancy [encA] bedsA 0 1).filter
          (fun r => decide ((r.hospital, r.unit_id) = ("H", "ICU")))).length
            = ((1 : Int) - 0).toNat + 1
       ∧ (dayGrid 0 1).Nodup) :=
  ⟨by decide, by decide, by decide, by decide,
    coverage_one_row_per_day [encA] bedsA 0 1 ("H", "ICU")
      (by decide) (by decide) (by decide) (by decide)⟩

/-- C3: with the capacity reference holding one record per key (its
data-model invariant), the staffed_beds of every output row is the bed
count of the capacity record with the key of that row, or 0 when no record matches;
occ_pct is the undefined marker exactly when staffed_beds is 0 and is
census / staffed_beds * 100 otherwise; and every group present in the
input yields output rows even when it has no capacity record. -/
theorem capacity_join (adm : List Encounter) (beds_ref : List Capacity)
    (s e : Int) (hU : bedsUnique beds_ref) :
    (∀ r ∈ compute_daily_true_occupancy adm beds_ref s e,
      (match findBeds beds_ref r.hospital r.unit_id with
       | some b => r.staffed_beds = b.baseline_staffed_beds
       | none => r.staffed_beds = 0)
      ∧ (r.occ_pct = none ↔ r.staffed_beds = 0)
      ∧ (r.staffed_beds ≠ 0
          → r.occ_pct = some (((r.census : ℚ) / (r.staffed_beds : ℚ)) * 100)))
    ∧ (adm ≠ [] → s ≤ e → ∀ k ∈ groupKeys adm,
        ∃ r ∈ compute_daily_true_occupancy adm beds_ref s e,
          r.hospital = k.1 ∧ r.unit_id = k.2) := by
  constructor
  · intro r hr
    by_cases hne : adm = []
    · subst hne
      simp [compute_daily_true_occupancy] at hr
    · rw [compute_eq_map adm beds_ref s e hU hne] at hr
      rcases List.mem_map.1 hr with ⟨cr, _, rfl⟩
      refine ⟨?_, mkOccRow_occ_none_iff cr _, fun hzero => mkOccRow_occ_formula cr _ ?_⟩
      · simp only [mkOccRow_hospital, mkOccRow_unit_id, mkOccRow_staffed]
        cases hf : findBeds beds_ref cr.hospital cr.unit_id with
        | some b => simp [lookupBeds, hf]
        | none => simp [lookupBeds, hf]
      · simpa using hzero
  · intro hne hse k hk
    rw [compute_eq_map adm beds_ref s e hU hne]
    refine ⟨mkOccRow (censusRowOf adm k s)
        (lookupBeds beds_ref (censusRowOf adm k s).hospital (censusRowOf adm k s).unit_id),
      List.mem_map.2 ⟨censusRowOf adm k s, ?_, rfl⟩, by simp, by simp⟩
    exact List.mem_flatMap.2 ⟨k, hk,
      List.mem_map.2 ⟨s, mem_dayGrid.2 ⟨le_refl s, hse⟩, rfl⟩⟩

theorem capacity_join_witness :
    bedsUnique bedsZ
    ∧ ((∀ r ∈ compute_daily_true_occupancy [encA] bedsZ 0 1,
        (match findBeds bedsZ r.hospital r.unit_id with
         | some b => r.staffed_beds = b.baseline_staffed_beds
         | none => r.staffed_beds = 0)
        ∧ (r.occ_pct = none ↔ r.staffed_beds = 0)
        ∧ (r.staffed_beds ≠ 0
            → r.occ_pct = some (((r.census : ℚ) / (r.staffed_beds : ℚ)) * 100)))
      ∧ (([encA] : List Encounter) ≠ [] → (0 : Int) ≤ 1 → ∀ k ∈ groupKeys [encA],
          ∃ r ∈ compute_daily_true_occupancy [encA] bedsZ 0 1,
            r.hospital = k.1 ∧ r.unit_id = k.2)) :=
  ⟨by decide, capacity_join [encA] bedsZ 0 1 (by decide)⟩

/-- C8: the admissions-per-day KPI is the arithmetic mean of the per-day
admission counts over exactly the calendar days carrying at least one
admission; a day of the window with no admissions is not averaged in as a
zero, because it forms no group. -/
theorem admissions_per_day_mean (adm : List Encounter) (h : admitDays adm ≠ []) :
    admissions_per_day adm
      = some ((∑ d ∈ (adm.filterMap admit_d).toFinset, (admitCountOn adm d : ℚ))
          / ((adm.filterMap admit_d).toFinset.card : ℚ))
    ∧ (∀ d : Int, d ∈ (adm.filterMap admit_d).toFinset ↔ 1 ≤ admitCountOn adm d) := by
  constructor
  · rw [admissions_per_day, if_neg h]
    have htf : (adm.filterMap admit_d).dedup.toFinset = (adm.filterMap admit_d).toFinset := by
      ext a
      simp [List.mem_toFinset, List.mem_dedup]
    have hsum : (∑ d ∈ (adm.filterMap admit_d).toFinset, (admitCountOn adm d : ℚ))
        = ((admitDays adm).map (fun d => (admitCountOn adm d : ℚ))).sum := by
      rw [← htf]
      exact List.sum_toFinset _ (List.nodup_dedup _)
    have hcard : (adm.filterMap admit_d).toFinset.card = (admitDays adm).length := by
      rw [List.card_toFinset]
      rfl
    rw [hsum, hcard]
  · intro d
    rw [List.mem_toFinset, List.mem_filterMap]
    constructor
    · rintro ⟨x, hx, hxd⟩
      exact List.length_pos_of_mem (List.mem_filter.2 ⟨hx, by simp [hxd]⟩)
    · intro h1
      have hne : (adm.filter (fun y => decide (admit_d y = some d))) ≠ [] := by
        intro hnil
        rw [admitCountOn, hnil] at h1
        simp at h1
      rcases List.exists_mem_of_ne_nil _ hne with ⟨x, hx⟩
      have hx2 := List.mem_filter.1 hx
      exact ⟨x, hx2.1, by simpa using hx2.2⟩

theorem admissions_per_day_mean_witness :
    admitDays [encA, encSame, encBad] ≠ []
    ∧ (admissions_per_day [encA, encSame, encBad]
        = some ((∑ d ∈ ([encA, encSame, encBad].filterMap admit_d).toFinset,
            (admitCountOn [encA, encSame, encBad] d : ℚ))
          / (([encA, encSame, encBad].filterMap admit_d).toFinset.card : ℚ))
       ∧ (∀ d : Int, d ∈ ([encA, encSame, encBad].filterMap admit_d).toFinset
            ↔ 1 ≤ admitCountOn [encA, encSame, encBad] d)) :=
  ⟨by decide, admissions_per_day_mean [encA, encSame, encBad] (by decide)⟩

lemma dateFromOK_iff (lo : Option Int) (x : Encounter) :
    dateFromOK lo x = true
      ↔ ∀ v, lo = some v → ∃ t, x.admit_ts = some t ∧ v ≤ t.day := by
  cases lo with
  | none => simp [dateFromOK]
  | some v =>
    cases ht : x.admit_ts with
    | none => simp [dateFromOK, admit_d, ht]
    | some t => simp [dateFromOK, admit_d, ht]

lemma dateToOK_iff (hi : Option Int) (x : Encounter) :
    dateToOK hi x = true
      ↔ ∀ v, hi = some v → ∃ t, x.admit_ts = some t ∧ t.day ≤ v := by
  cases hi with
  | none => simp [dateToOK]
  | some v =>
    cases ht : x.admit_ts with
    | none => simp [dateToOK, admit_d, ht]
    | some t => simp [dateToOK, admit_d, ht]

lemma hospOK_iff (h : Option String) (x : Encounter) :
    hospOK h x = true ↔ ∀ v, h = some v → v ≠ "All" → x.hospital = v := by
  cases h with
  | none => simp [hospOK]
  | some v =>
    by_cases hv : v = "All"
    · subst hv
      simp [hospOK]
    · simp [hospOK, hv]

lemma unitOK_iff (u : Option String) (x : Encounter) :
    unitOK u x = true ↔ ∀ v, u = some v → v ≠ "All" → x.unit_id = v := by
  cases u with
  | none => simp [unitOK]
  | some v =>
    by_cases hv : v = "All"
    · subst hv
      simp [unitOK]
    · simp [unitOK, hv]

/-- C9: a row is returned by load_admissions exactly when it is stored and
satisfies every non-sentinel filter; the date bounds constrain the admit
date only (a row with an unparseable admit timestamp satisfies no date
bound, and the discharge date plays no role), and passing the sentinel
"All" for hospital or unit is the same as passing None. -/
theorem load_admissions_filter_semantics (db : List Encounter)
    (date_from date_to : Option Int) (hospital unit : Option String) :
    (∀ x, x ∈ load_admissions db date_from date_to hospital unit ↔
      x ∈ db
      ∧ (∀ v, date_from = some v → ∃ t, x.admit_ts = some t ∧ v ≤ t.day)
      ∧ (∀ v, date_to = some v → ∃ t, x.admit_ts = some t ∧ t.day ≤ v)
      ∧ (∀ v, hospital = some v → v ≠ "All" → x.hospital = v)
      ∧ (∀ v, unit = some v → v ≠ "All" → x.unit_id = v))
    ∧ load_admissions db date_from date_to (some "All") unit
        = load_admissions db date_from date_to none unit
    ∧ load_admissions db date_from date_to hospital (some "All")
        = load_admissions db date_from date_to hospital none := by
  refine ⟨fun x => ?_, ?_, ?_⟩
  · rw [load_admissions, List.mem_filter]
    simp only [Bool.and_eq_true]
    rw [dateFromOK_iff, dateToOK_iff, hospOK_iff, unitOK_iff]
    tauto
  · rw [load_admissions, load_admissions]
    apply List.filter_congr
    intro x _
    simp [hospOK]
  · rw [load_admissions, load_admissions]
    apply List.filter_congr
    intro x _
    simp [unitOK]

theorem load_admissions_filter_semantics_witness :
    encA ∈ load_admissions [encA, encBad] (some 0) (some 3) (some "All") (some "ICU") ↔
      encA ∈ [encA, encBad]
      ∧ (∀ v, (some (0 : Int)) = some v → ∃ t, encA.admit_ts = some t ∧ v ≤ t.day)
      ∧ (∀ v, (some (3 : Int)) = some v → ∃ t, encA.admit_ts = some t ∧ t.day ≤ v)
      ∧ (∀ v, (some "All") = some v → v ≠ "All" → encA.hospital = v)
      ∧ (∀ v, (some "ICU") = some v → v ≠ "All" → encA.unit_id = v) :=
  (load_admissions_filter_semantics [encA, encBad]
    (some 0) (some 3) (some "All") (some "ICU")).1 encA

lemma arrivalsCount_pos (adm : List Encounter) (k : String × String × Int)
    (hk : k ∈ arrivalKeys adm) : 1 ≤ arrivalsCount adm k := by
  rw [arrivalKeys, List.mem_dedup] at hk
  rcases List.mem_filterMap.1 hk with ⟨x, hx, hxk⟩
  exact List.length_pos_of_mem (List.mem_filter.2 ⟨hx, by simp [hxk]⟩)

/-- C4 counterexample: one arrival for (H, ICU) on day 0 against a
capacity record of 0 staffed beds gives a proxy row whose denominator is
0 yet whose ratio is the finite clip cap 6/5 = 1.2, not an undefined
marker — the claim that every occupancy ratio with a zero denominator
produces an explicit undefined value is false on the code. -/
theorem division_by_zero_claim_counterexample :
    (occ_proxy_rows [encA] bedsZ).map ProxyRow.baseline = [some 0]
    ∧ (occ_proxy_rows [encA] bedsZ).map ProxyRow.occ_proxy = [PVal.val (6/5 : ℚ)]
    ∧ PVal.val (6/5 : ℚ) ≠ PVal.nan := by
  refine ⟨by decide, rfl, fun h => PVal.noConfusion h⟩

/-- C4 amended: no occupancy ratio raises; the true-occupancy ratio
carries the undefined marker whenever staffed_beds is 0 (including a
missing capacity record, filled with 0), and the proxy ratio carries the
undefined marker when its denominator is missing — but when the
denominator is the value 0 the clip at 1.2 turns the infinite ratio into
the finite cap 6/5. -/
theorem division_by_zero_amended (adm : List Encounter) (beds_ref : List Capacity)
    (s e : Int) :
    (∀ r ∈ compute_daily_true_occupancy adm beds_ref s e,
        r.staffed_beds = 0 → r.occ_pct = none)
    ∧ (∀ p ∈ occ_proxy_rows adm beds_ref,
        (p.baseline = none → p.occ_proxy = PVal.nan)
        ∧ (p.baseline = some 0 → p.occ_proxy = PVal.val (6/5 : ℚ))) := by
  constructor
  · intro r hr hz
    by_cases hne : adm = []
    · subst hne
      simp [compute_daily_true_occupancy] at hr
    · rw [compute_daily_true_occupancy, if_neg (by simp [hne])] at hr
      rcases List.mem_flatMap.1 hr with ⟨cr, _, hrm⟩
      have hex : ∃ L, r = mkOccRow cr L := by
        unfold mergeRow at hrm
        cases hbm : bedsMatches beds_ref cr.hospital cr.unit_id with
        | nil =>
          rw [hbm] at hrm
          simp at hrm
          exact ⟨0, hrm⟩
        | cons b ms =>
          rw [hbm] at hrm
          simp only [List.mem_map] at hrm
          rcases hrm with ⟨c, _, hc⟩
          exact ⟨c.baseline_staffed_beds, hc.symm⟩
      rcases hex with ⟨L, rfl⟩
      rw [mkOccRow_staffed] at hz
      subst hz
      simp [mkOccRow]
  · intro p hp
    unfold occ_proxy_rows at hp
    rcases List.mem_flatMap.1 hp with ⟨k, hk, hpm⟩
    have ha := arrivalsCount_pos adm k hk
    cases hbm : bedsMatches beds_ref k.1 k.2.1 with
    | nil =>
      rw [hbm] at hpm
      simp at hpm
      subst hpm
      refine ⟨fun _ => by simp [mkProxyRow, npDiv, pclip], fun hb => ?_⟩
      simp [mkProxyRow] at hb
    | cons b ms =>
      rw [hbm] at hpm
      simp only [List.mem_map] at hpm
      rcases hpm with ⟨c, _, hc⟩
      subst hc
      refine ⟨fun hb => by simp [mkProxyRow] at hb, fun hb => ?_⟩
      have hc0 : c.baseline_staffed_beds = 0 := by simpa [mkProxyRow] using hb
      have hane : arrivalsCount adm k ≠ 0 := by omega
      simp [mkProxyRow, npDiv, hc0, hane, pclip]

theorem division_by_zero_amended_witness :
    mkProxyRow ("H", "ICU", 0) 1 (some 0) ∈ occ_proxy_rows [encA] bedsZ
    ∧ (mkProxyRow ("H", "ICU", 0) 1 (some 0)).baseline = some 0
    ∧ (mkProxyRow ("H", "ICU", 0) 1 (some 0)).occ_proxy = PVal.val (6/5 : ℚ) :=
  have hmem : mkProxyRow ("H", "ICU", 0) 1 (some 0) ∈ occ_proxy_rows [encA] bedsZ := by
    have h : occ_proxy_rows [encA] bedsZ = [mkProxyRow ("H", "ICU", 0) 1 (some 0)] := rfl
    rw [h]
    exact List.mem_singleton.2 rfl
  ⟨hmem, rfl,
    ((division_by_zero_amended [encA] bedsZ 0 1).2
      (mkProxyRow ("H", "ICU", 0) 1 (some 0)) hmem).2 rfl⟩

end Hospital
